import Mathlib

/-!
Shallow embedding of the MGNBot core (bulk-operation engine and status
reconciliation layer) and proofs about its claimed properties.

Sources embedded:
- src/models/server.py       : data model (BulkOperationResult, BulkOperationProgress)
- src/aws/mgn_client.py      : StatusReconciler (_parse_source_server and helpers),
                               launch_test_instances / terminate_test_instances
- src/ui/main_window.py      : BulkOperationCoordinator (_launch_test_instances_async,
                               _terminate_test_instances_async aggregation threads)
- src/utils/async_utils.py   : RateLimiter.acquire, run_concurrent_with_rate_limit,
                               run_concurrent_sync

Python's untyped dict/list payloads are embedded as a JSON-like value type
`JValue`; Python truthiness is `truthy`; a raised exception in a modelled
function is `Option.none` (an `Except`-style result where the message matters).
Machine floats for progress percentages and timestamps are modelled as `Rat`
(the arithmetic the claims mention is exact at the inputs involved).
-/

namespace MGNBot

/-- Untyped JSON-like values, modelling the Python objects that flow out of
the remote API (`boto3` responses): strings, numbers, booleans, None, lists
and string-keyed dicts (dicts keep insertion order, as in Python 3.7+). -/
inductive JValue where
  | str (s : String)
  | num (n : Int)
  | bool (b : Bool)
  | null
  | arr (xs : List JValue)
  | obj (fields : List (String × JValue))
  deriving Repr

mutual

/-- Structural (Python `==`) equality test on `JValue`. -/
def JValue.beq : JValue → JValue → Bool
  | .str a, .str b => a == b
  | .num a, .num b => a == b
  | .bool a, .bool b => a == b
  | .null, .null => true
  | .arr xs, .arr ys => JValue.beqList xs ys
  | .obj fs, .obj gs => JValue.beqFields fs gs
  | _, _ => false

/-- Equality test on lists of `JValue`. -/
def JValue.beqList : List JValue → List JValue → Bool
  | [], [] => true
  | x :: xs, y :: ys => JValue.beq x y && JValue.beqList xs ys
  | _, _ => false

/-- Equality test on dict field lists. -/
def JValue.beqFields : List (String × JValue) → List (String × JValue) → Bool
  | [], [] => true
  | (k, v) :: fs, (l, w) :: gs => k == l && JValue.beq v w && JValue.beqFields fs gs
  | _, _ => false

end

/-- Member-wise induction principle for `JValue` (the nested recursor is not
directly usable). -/
theorem JValue.ind {motive : JValue → Prop}
    (hstr : ∀ s, motive (.str s))
    (hnum : ∀ n, motive (.num n))
    (hbool : ∀ b, motive (.bool b))
    (hnull : motive .null)
    (harr : ∀ xs, (∀ x ∈ xs, motive x) → motive (.arr xs))
    (hobj : ∀ fs, (∀ p ∈ fs, motive p.2) → motive (.obj fs)) :
    ∀ v, motive v
  | .str s => hstr s
  | .num n => hnum n
  | .bool b => hbool b
  | .null => hnull
  | .arr xs => harr xs (fun x hx =>
      have : sizeOf x < 1 + sizeOf xs := by
        have := List.sizeOf_lt_of_mem hx
        omega
      JValue.ind hstr hnum hbool hnull harr hobj x)
  | .obj fs => hobj fs (fun p hp =>
      have : sizeOf p.2 < 1 + sizeOf fs := by
        have h1 := List.sizeOf_lt_of_mem hp
        have h2 : sizeOf p.2 < sizeOf p := by
          obtain ⟨a, b⟩ := p
          simp only [Prod.mk.sizeOf_spec]
          omega
        omega
      JValue.ind hstr hnum hbool hnull harr hobj p.2)
termination_by v => sizeOf v
decreasing_by
  · simp only [JValue.arr.sizeOf_spec]; omega
  · simp only [JValue.obj.sizeOf_spec]; omega

theorem JValue.beqList_iff (xs : List JValue)
    (ih : ∀ x ∈ xs, ∀ b, JValue.beq x b = true ↔ x = b) :
    ∀ ys, JValue.beqList xs ys = true ↔ xs = ys := by
  induction xs with
  | nil => intro ys; cases ys <;> simp [JValue.beqList]
  | cons x xs ihx =>
    intro ys
    cases ys with
    | nil => simp [JValue.beqList]
    | cons y ys =>
      have hx := ih x (by simp)
      have hrest := ihx (fun z hz => ih z (by simp [hz]))
      simp [JValue.beqList, Bool.and_eq_true, hx y, hrest ys]

theorem JValue.beqFields_iff (fs : List (String × JValue))
    (ih : ∀ p ∈ fs, ∀ b, JValue.beq p.2 b = true ↔ p.2 = b) :
    ∀ gs, JValue.beqFields fs gs = true ↔ fs = gs := by
  induction fs with
  | nil => intro gs; cases gs <;> simp [JValue.beqFields]
  | cons p fs ihf =>
    intro gs
    cases gs with
    | nil => obtain ⟨k, v⟩ := p; simp [JValue.beqFields]
    | cons q gs =>
      obtain ⟨k, v⟩ := p
      obtain ⟨l, w⟩ := q
      have hv := ih ⟨k, v⟩ (by simp)
      have hrest := ihf (fun z hz => ih z (by simp [hz]))
      simp [JValue.beqFields, Bool.and_eq_true, hv w, hrest gs, and_assoc]

theorem JValue.beq_iff : ∀ a b : JValue, JValue.beq a b = true ↔ a = b := by
  intro a
  induction a using JValue.ind with
  | hstr s => intro b; cases b <;> simp [JValue.beq]
  | hnum n => intro b; cases b <;> simp [JValue.beq]
  | hbool x => intro b; cases b <;> simp [JValue.beq]
  | hnull => intro b; cases b <;> simp [JValue.beq]
  | harr xs ih =>
    intro b
    cases b <;> simp [JValue.beq]
    exact JValue.beqList_iff xs ih _
  | hobj fs ih =>
    intro b
    cases b <;> simp [JValue.beq]
    exact JValue.beqFields_iff fs ih _

instance : DecidableEq JValue := fun a b =>
  decidable_of_iff (JValue.beq a b = true) (JValue.beq_iff a b)

/-- Python `dict.get(k)`: the first binding of `k`, if any (dict keys are
unique, so first-match equals the dict lookup). -/
def jget (fields : List (String × JValue)) (k : String) : Option JValue :=
  (fields.find? (fun p => p.1 = k)).map (fun p => p.2)

/-- Python `dict.get(k, d)`: lookup with a default. -/
def jgetD (fields : List (String × JValue)) (k : String) (d : JValue) : JValue :=
  (jget fields k).getD d

/-- Python truthiness of a `JValue`: empty string, zero, False, None, empty
list and empty dict are falsy; everything else is truthy. -/
def truthy : JValue → Bool
  | .str s => s != ""
  | .num n => n != 0
  | .bool b => b
  | .null => false
  | .arr xs => !xs.isEmpty
  | .obj fs => !fs.isEmpty

/-- Python `s.lower()` called on a value annotated `str`: succeeds only on an
actual string (`AttributeError`, i.e. `none`, otherwise). Lowering is
modelled character-wise with `Char.toLower` (the keys compared in the source
are ASCII). -/
def pyStrLower : JValue → Option String
  | .str s => some (String.mk (s.data.map Char.toLower))
  | _ => none

/-! ## Data model (src/models/server.py) -/

/-- The `BulkOperationResult` dataclass (src/models/server.py lines 65-74).
`timestamp` models the `datetime.now()` default; the coordinator never passes
it explicitly, so it is kept abstract as a `Rat` supplied by the embedding's
clock parameter (0 where irrelevant). -/
structure BulkOperationResult where
  server_id : String
  server_name : String
  success : Bool
  operation_type : String
  timestamp : Rat := 0
  error_message : Option String := none
  instance_id : Option String := none
  deriving DecidableEq, Repr

/-- The `BulkOperationProgress` dataclass (src/models/server.py lines 76-96). -/
structure BulkOperationProgress where
  total_servers : Nat
  completed : Nat := 0
  successful : Nat := 0
  failed : Nat := 0
  in_progress : Nat := 0
  results : List BulkOperationResult := []
  deriving DecidableEq, Repr

/-- The `BulkOperationProgress.progress_percentage` property (server.py 86-91):
returns 0.0 when `total_servers == 0`, else `completed / total_servers * 100`. -/
def BulkOperationProgress.progress_percentage (p : BulkOperationProgress) : Rat :=
  if p.total_servers = 0 then 0
  else ((p.completed : Rat) / (p.total_servers : Rat)) * 100

/-- The `BulkOperationProgress.is_complete` property (server.py 93-96):
`completed >= total_servers`. -/
def BulkOperationProgress.is_complete (p : BulkOperationProgress) : Bool :=
  p.total_servers ≤ p.completed

/-! ## Status reconciliation (src/aws/mgn_client.py 96-323)

`_parse_source_server` and its helpers, working over untyped `JValue`
records. A Python exception inside the parse of one record (re-raised by the
function's own `except` clause) is modelled as `Option.none`. -/

/-- The `ServerStatus` enumeration (src/models/server.py 10-28). -/
inductive ServerStatus where
  | UNKNOWN
  | NOT_READY
  | READY_FOR_TEST
  | READY_FOR_TESTING
  | READY_FOR_CUTOVER
  | CUTOVER_IN_PROGRESS
  | CUTOVER_COMPLETE
  | CUTOVER_COMPLETED
  | CUTOVER_FAILED
  | TEST_IN_PROGRESS
  | TEST_COMPLETE
  | TEST_COMPLETED
  | TEST_FAILED
  | STALLED
  | DISCONNECTED
  | ERROR
  | STOPPED
  deriving DecidableEq, Repr

/-- The `ReplicationStatus` enumeration (src/models/server.py 30-39). -/
inductive ReplicationStatus where
  | UNKNOWN
  | REPLICATING
  | REPLICATED
  | FAILED
  | STOPPED
  | INITIAL_SYNC
  | BACKLOG
  | CONTINUOUS
  deriving DecidableEq, Repr

/-- The `status_mapping` dict of `_parse_server_status`
(mgn_client.py 274-290); keys absent from the table map to `UNKNOWN`
(`CUTOVER_FAILED` is notably not in the table). -/
def serverStatusTable (s : String) : ServerStatus :=
  if s = "READY_FOR_TEST" then .READY_FOR_TEST
  else if s = "READY_FOR_TESTING" then .READY_FOR_TESTING
  else if s = "READY_FOR_CUTOVER" then .READY_FOR_CUTOVER
  else if s = "CUTOVER_IN_PROGRESS" then .CUTOVER_IN_PROGRESS
  else if s = "CUTOVER_COMPLETE" then .CUTOVER_COMPLETE
  else if s = "CUTOVER_COMPLETED" then .CUTOVER_COMPLETED
  else if s = "STOPPED" then .STOPPED
  else if s = "STALLED" then .STALLED
  else if s = "ERROR" then .ERROR
  else if s = "DISCONNECTED" then .DISCONNECTED
  else if s = "NOT_READY" then .NOT_READY
  else if s = "TEST_IN_PROGRESS" then .TEST_IN_PROGRESS
  else if s = "TEST_COMPLETE" then .TEST_COMPLETE
  else if s = "TEST_COMPLETED" then .TEST_COMPLETED
  else if s = "TEST_FAILED" then .TEST_FAILED
  else .UNKNOWN

/-- Embedding of `_parse_server_status` (mgn_client.py 272-292): `status_mapping.get(x,
UNKNOWN)`. A non-string hashable key simply misses the table (`UNKNOWN`); an
unhashable key (Python list/dict) raises `TypeError` (`none`). -/
def parse_server_status (aws_status : JValue) : Option ServerStatus :=
  match aws_status with
  | .str s => some (serverStatusTable s)
  | .arr _ => none
  | .obj _ => none
  | _ => some .UNKNOWN

/-- Embedding of `_parse_replication_status` (mgn_client.py 294-323). The argument is the
`dataReplicationInfo` dict (already known to be a dict; the empty dict is
falsy, hence `UNKNOWN`). -/
def parse_replication_status (replication_data : List (String × JValue)) :
    ReplicationStatus :=
  if replication_data.isEmpty then .UNKNOWN
  else
    let replication_state := jgetD replication_data "dataReplicationState" (.str "")
    if replication_state = .str "STOPPED" then .STOPPED
    else if replication_state = .str "FAILED" then .FAILED
    else if replication_state = .str "INITIAL_SYNC" then .INITIAL_SYNC
    else if replication_state = .str "INITIAL_SYNC_COMPLETE" then .REPLICATED
    else if replication_state = .str "BACKLOG" then .BACKLOG
    else if replication_state = .str "CONTINUOUS" then .CONTINUOUS
    else
      let lag_duration := jgetD replication_data "lagDuration" (.str "")
      if truthy lag_duration ∧ lag_duration ≠ .str "P0D" then .REPLICATING
      else if truthy (jgetD replication_data "lastSnapshotDateTime" .null) then
        .REPLICATED
      else .UNKNOWN

/-- The tag-list scan of `_extract_server_name` (mgn_client.py 249-253): the
first dict entry whose lowercased `key` equals `"name"` returns its `value`
(default `"Unknown"`); non-dict entries are skipped; a non-string `key`
raises `AttributeError` on `.lower()`. Encoding: `none` = raised,
`some none` = loop finished without a match, `some (some v)` = returned `v`. -/
def findNameInTagList : List JValue → Option (Option JValue)
  | [] => some none
  | tag :: rest =>
    match tag with
    | .obj kvs =>
      match pyStrLower (jgetD kvs "key" (.str "")) with
      | none => none
      | some lk =>
        if lk = "name" then some (some (jgetD kvs "value" (.str "Unknown")))
        else findNameInTagList rest
    | _ => findNameInTagList rest

/-- The tag stage of `_extract_server_name` (mgn_client.py 243-253): a dict
looks up the exact key `"Name"`; a list runs the case-insensitive scan; other
shapes produce no candidate. -/
def nameFromTags (server_data : List (String × JValue)) : Option (Option JValue) :=
  match jgetD server_data "tags" (.obj []) with
  | .obj kvs => some (jget kvs "Name")
  | .arr tags => findNameInTagList tags
  | _ => some none

/-- The hostname stage of `_extract_server_name` (mgn_client.py 259-266):
only when `isArchived` is exactly `False`, a truthy
`sourceProperties.identificationHints.hostname`. -/
def nameFromHostname (server_data : List (String × JValue)) : Option JValue :=
  if jget server_data "isArchived" = some (.bool false) then
    match jgetD server_data "sourceProperties" (.obj []) with
    | .obj props =>
      match jgetD props "identificationHints" (.obj []) with
      | .obj hints =>
        let h := jgetD hints "hostname" .null
        if truthy h then some h else none
      | _ => none
    | _ => none
  else none

/-- Embedding of `_extract_server_name` (mgn_client.py 241-270): tags, then truthy
`description`, then the hostname hint, then the `"Server-" + id[:8]`
fallback (whole id when shorter than 8 characters). A non-string
`sourceServerID` reaching the fallback is modelled as a parse failure. -/
def extract_server_name (server_data : List (String × JValue)) : Option JValue :=
  match nameFromTags server_data with
  | none => none
  | some (some v) => some v
  | some none =>
    let desc := jgetD server_data "description" .null
    if truthy desc then some desc
    else
      match nameFromHostname server_data with
      | some h => some h
      | none =>
        match jgetD server_data "sourceServerID" (.str "Unknown") with
        | .str server_id =>
            some (.str (if 8 ≤ server_id.length then "Server-" ++ server_id.take 8
                        else "Server-" ++ server_id))
        | _ => none

/-- A tag entry that the name scan passes over: either not a dict, or a dict
whose (string, after the default) key lowercases to something other than
`"name"`. -/
def tagSkipsNameScan : JValue → Prop
  | .obj kvs => ∃ lk, pyStrLower (jgetD kvs "key" (.str "")) = some lk ∧ lk ≠ "name"
  | _ => True

/-- A replication-state value that misses every entry of the fixed mapping
table. -/
def replicationStateUnmapped (s : JValue) : Prop :=
  s ≠ .str "STOPPED" ∧ s ≠ .str "FAILED" ∧ s ≠ .str "INITIAL_SYNC" ∧
  s ≠ .str "INITIAL_SYNC_COMPLETE" ∧ s ≠ .str "BACKLOG" ∧ s ≠ .str "CONTINUOUS"

/-- Values usable as Python dict keys (hashable); lists and dicts raise
`TypeError`. -/
def jHashable : JValue → Bool
  | .arr _ => false
  | .obj _ => false
  | _ => true

/-- Python `d[k] = v` on a dict: overwrite in place, or append a new binding. -/
def dictInsert (d : List (JValue × JValue)) (k v : JValue) :
    List (JValue × JValue) :=
  if d.any (fun p => p.1 = k) then d.map (fun p => if p.1 = k then (p.1, v) else p)
  else d ++ [(k, v)]

/-- Tag extraction of `_parse_source_server` (mgn_client.py 204-214): a dict
is taken as-is; a list is folded entry by entry (`tags[tag.key] = tag.value`
for dict entries holding both keys, others skipped); any other shape yields
the empty dict. An unhashable tag key raises (`none`). -/
def extract_tags (server_data : List (String × JValue)) :
    Option (List (JValue × JValue)) :=
  match jgetD server_data "tags" (.obj []) with
  | .obj kvs => some (kvs.map (fun p => (JValue.str p.1, p.2)))
  | .arr server_tags =>
      server_tags.foldl
        (fun acc tag =>
          match acc with
          | none => none
          | some tags =>
            match tag with
            | .obj kvs =>
              match jget kvs "key", jget kvs "value" with
              | some k, some v =>
                  if jHashable k then some (dictInsert tags k v) else none
              | _, _ => some tags
            | _ => some tags)
        (some [])
  | _ => some []

/-- The `last_seen` resolution of `_parse_source_server`
(mgn_client.py 126-147): try `lastLaunchResult.lastLaunchTime`, then
`lifeCycle.lastSeenByServiceDateTime`; each candidate string has `"Z"`
replaced by `"+00:00"` and is handed to `datetime.fromisoformat`, modelled
by the parameter `fromiso` (a `ValueError` there leaves the field absent);
`.replace` on a truthy non-string raises (`none`). -/
def parse_last_seen (fromiso : String → Option String)
    (server_data : List (String × JValue)) : Option (Option String) :=
  let first : Option (Option String) :=
    match jgetD server_data "lastLaunchResult" (.obj []) with
    | .obj llr =>
      let s := jgetD llr "lastLaunchTime" .null
      if truthy s then
        match s with
        | .str t => some (fromiso (t.replace "Z" "+00:00"))
        | _ => none
      else some none
    | _ => some none
  match first with
  | none => none
  | some (some d) => some (some d)
  | some none =>
    match jgetD server_data "lifeCycle" (.obj []) with
    | .obj lc =>
      let s := jgetD lc "lastSeenByServiceDateTime" .null
      if truthy s then
        match s with
        | .str t => some (fromiso (t.replace "Z" "+00:00"))
        | _ => none
      else some none
    | _ => some none

/-- The test-instance id/state resolution of `_parse_source_server` before
the EC2 lookup (mgn_client.py 149-176): `launchedInstance.ec2InstanceID` and
`.state`; if the id is falsy, `testInstanceID` with assumed state
`"running"`; if still falsy, the first string field shaped like an instance
id (`i-` prefix, length > 10), with assumed state `"running"`. `.null` is
Python `None`. -/
def testInstanceIdState (server_data : List (String × JValue)) :
    JValue × JValue :=
  let p1 : JValue × JValue :=
    match jgetD server_data "launchedInstance" (.obj []) with
    | .obj kvs => (jgetD kvs "ec2InstanceID" .null, jgetD kvs "state" .null)
    | _ => (.null, .null)
  let p2 : JValue × JValue :=
    if truthy p1.1 then p1
    else
      let tid := jgetD server_data "testInstanceID" .null
      if truthy tid then (tid, .str "running") else (tid, p1.2)
  if truthy p2.1 then p2
  else
    match server_data.findSome?
        (fun kv =>
          match kv.2 with
          | .str v =>
              if "i-".data.isPrefixOf v.data ∧ 10 < v.length then
                some (JValue.str v)
              else none
          | _ => none) with
    | some v => (v, .str "running")
    | none => p2

/-- Outcome of the best-effort `ec2_client.describe_instances` lookup
(mgn_client.py 179-190), the opaque instance-describe capability. -/
inductive ECOutcome where
  | fail
  | noReservations
  | found (state : String)
  deriving DecidableEq, Repr

/-- The EC2 state lookup of `_parse_source_server` (mgn_client.py 178-190):
taken only when an instance id was found with no state; an exception yields
`"unknown"`, an empty reservation list leaves the state unchanged, otherwise
the described state (its own `"unknown"` default folded into `found`). -/
def resolveTestInstanceState (ec2 : JValue → ECOutcome)
    (tid tstate : JValue) : JValue :=
  if truthy tid ∧ ¬ truthy tstate then
    match ec2 tid with
    | .fail => .str "unknown"
    | .noReservations => tstate
    | .found s => .str s
  else tstate

/-- Whether `_parse_source_server` consults the EC2 instance-describe
capability on this record (mgn_client.py line 179 guard). -/
def ec2LookupTaken (server_data : List (String × JValue)) : Bool :=
  truthy (testInstanceIdState server_data).1 &&
    !truthy (testInstanceIdState server_data).2

/-- The `SourceServer` dataclass (src/models/server.py 41-55). Fields the Python
code leaves untyped hold raw `JValue`s (`.null` is Python `None`);
`last_seen_date_time` holds the normalized string handed to the datetime
parser. -/
structure SourceServer where
  source_server_id : JValue
  name : JValue
  status : ServerStatus
  replication_status : ReplicationStatus
  region : String
  last_seen_date_time : Option String
  target_instance_id : JValue
  target_instance_type : JValue
  test_instance_id : JValue
  test_instance_state : JValue
  tags : List (JValue × JValue)
  description : JValue
  deriving DecidableEq, Repr

/-- Embedding of `_parse_source_server` (mgn_client.py 96-239): reconcile one raw record.
`ec2` is the opaque instance-describe capability, `fromiso` the datetime
parser, `region` is `aws_config.region`. `none` models the re-raised
exception (in particular the `ValueError` for a falsy `sourceServerID`). -/
def parse_source_server (ec2 : JValue → ECOutcome)
    (fromiso : String → Option String) (region : String)
    (server_data : List (String × JValue)) : Option SourceServer :=
  let source_server_id := jgetD server_data "sourceServerID" (.str "")
  if ¬ truthy source_server_id then none
  else
    match extract_server_name server_data with
    | none => none
    | some name =>
      let statusOpt : Option ServerStatus :=
        match jgetD server_data "lifeCycle" (.obj []) with
        | .obj lc => parse_server_status (jgetD lc "state" (.str ""))
        | _ => some .UNKNOWN
      match statusOpt with
      | none => none
      | some status =>
        let replication_status :=
          match jgetD server_data "dataReplicationInfo" (.obj []) with
          | .obj rd => parse_replication_status rd
          | _ => .UNKNOWN
        match parse_last_seen fromiso server_data with
        | none => none
        | some last_seen =>
          let ts := testInstanceIdState server_data
          let test_instance_state := resolveTestInstanceState ec2 ts.1 ts.2
          let target_instance_id :=
            jgetD server_data "targetInstanceIDRightSizingMethod" .null
          let target_instance_type :=
            match jgetD server_data "sourceProperties" (.obj []) with
            | .obj props => jgetD props "recommendedInstanceType" .null
            | _ => .null
          match extract_tags server_data with
          | none => none
          | some tags =>
            some { source_server_id := source_server_id
                   name := name
                   status := status
                   replication_status := replication_status
                   region := region
                   last_seen_date_time := last_seen
                   target_instance_id := target_instance_id
                   target_instance_type := target_instance_type
                   test_instance_id := ts.1
                   test_instance_state := test_instance_state
                   tags := tags
                   description := jgetD server_data "description" (.str "") }

/-- The per-item loop of `get_source_servers` (mgn_client.py 58-79): non-dict
items are skipped with a warning; a record whose parse raises is skipped by
the per-item `except`; no exception escapes the loop. -/
def get_source_servers_items (ec2 : JValue → ECOutcome)
    (fromiso : String → Option String) (region : String) :
    List JValue → List SourceServer
  | [] => []
  | server_data :: rest =>
    match server_data with
    | .obj sd =>
      match parse_source_server ec2 fromiso region sd with
      | some s => s :: get_source_servers_items ec2 fromiso region rest
      | none => get_source_servers_items ec2 fromiso region rest
    | _ => get_source_servers_items ec2 fromiso region rest

/-! ## Bulk remote actions (src/aws/mgn_client.py 325-421)

The remote MGN API is opaque: each per-id call (for launch:
`update_launch_configuration` when configured, then `start_test`; for
terminate: `stop_test`) is modelled by a capability
`remote : String → Except String (Option String)` returning the error
message of a `ClientError` or the job id `response.get('job').get('jobID')`
(which may be absent, hence `Option`). -/

/-- An entry of `results['successful']` in
`launch_test_instances` / `terminate_test_instances`. -/
structure MGNSuccessItem where
  server_id : String
  job_id : Option String
  status : String
  deriving DecidableEq, Repr

/-- An entry of `results['failed']`. -/
structure MGNFailedItem where
  server_id : String
  error : String
  deriving DecidableEq, Repr

/-- The `results` dict built by the two bulk actions. -/
structure MGNResults where
  successful : List MGNSuccessItem
  failed : List MGNFailedItem
  total : Nat
  deriving DecidableEq, Repr

/-- The shared loop body of the two bulk actions (mgn_client.py 338-372 and
392-414): a successful per-id remote call appends
`{server_id, job_id, status}` to `successful`, a `ClientError` appends
`{server_id, error}` to `failed`. The two actions differ only in the remote
call made and the status literal. -/
def bulkActionStep (status : String)
    (remote : String → Except String (Option String))
    (r : MGNResults) (server_id : String) : MGNResults :=
  match remote server_id with
  | .ok job_id =>
      { r with successful := r.successful ++
          [{ server_id := server_id, job_id := job_id, status := status }] }
  | .error msg =>
      { r with failed := r.failed ++
          [{ server_id := server_id, error := msg }] }

/-- Embedding of `MGNClient.launch_test_instances` (mgn_client.py 325-379). -/
def launch_test_instances (remote : String → Except String (Option String))
    (source_server_ids : List String) : MGNResults :=
  source_server_ids.foldl (bulkActionStep "launched" remote)
    { successful := [], failed := [], total := source_server_ids.length }

/-- Embedding of `MGNClient.terminate_test_instances` (mgn_client.py 381-421): same loop
with `stop_test` and status `"terminated"`. -/
def terminate_test_instances (remote : String → Except String (Option String))
    (source_server_ids : List String) : MGNResults :=
  source_server_ids.foldl (bulkActionStep "terminated" remote)
    { successful := [], failed := [], total := source_server_ids.length }

/-! ## Coordinator aggregation (src/ui/main_window.py 309-474)

`_launch_test_instances_async` / `_terminate_test_instances_async` run the
bulk remote action, then fold its `successful` and `failed` item lists into a
fresh `BulkOperationProgress`, and finally call
`progress_dialog.update_progress(progress)` exactly once (lines 353 / 432).
The progress sink is modelled by returning, alongside the final progress
value, the list of snapshots passed to `update_progress`, in call order.
`nameOf` models `_get_server_name_by_id`; `timestamp` keeps its model
default. Only the non-raising path is modelled (the `except` path replaces
the aggregation with an all-failed one and also calls the sink once). -/

/-- One success aggregation step (main_window.py 334-336 and 412-414):
append the result, increment `successful` and `completed` together. -/
def BulkOperationProgress.addSuccess (p : BulkOperationProgress)
    (r : BulkOperationResult) : BulkOperationProgress :=
  { p with results := p.results ++ [r],
           successful := p.successful + 1,
           completed := p.completed + 1 }

/-- One failure aggregation step (main_window.py 349-351 and 427-429):
append the result, increment `failed` and `completed` together. -/
def BulkOperationProgress.addFailure (p : BulkOperationProgress)
    (r : BulkOperationResult) : BulkOperationProgress :=
  { p with results := p.results ++ [r],
           failed := p.failed + 1,
           completed := p.completed + 1 }

/-- The `BulkOperationResult` built from a successful item
(main_window.py 327-333, operation-type parametric). -/
def mkSuccessResult (nameOf : String → String) (op_type : String)
    (item : MGNSuccessItem) : BulkOperationResult :=
  { server_id := item.server_id,
    server_name := nameOf item.server_id,
    success := true,
    operation_type := op_type,
    instance_id := item.job_id }

/-- The `BulkOperationResult` built from a failed item
(main_window.py 342-348, operation-type parametric). -/
def mkFailedResult (nameOf : String → String) (op_type : String)
    (item : MGNFailedItem) : BulkOperationResult :=
  { server_id := item.server_id,
    server_name := nameOf item.server_id,
    success := false,
    operation_type := op_type,
    error_message := some item.error }

/-- The aggregation performed by `launch_operation` inside
`_launch_test_instances_async` (main_window.py 311-353): start from a fresh
progress with `total_servers = len(server_ids)`, fold the successful items,
then the failed items, then invoke the sink once with the final snapshot.
Returned: (final progress, snapshots passed to the sink). -/
def launch_operation_aggregate (nameOf : String → String)
    (server_ids : List String) (res : MGNResults) :
    BulkOperationProgress × List BulkOperationProgress :=
  let p0 : BulkOperationProgress := { total_servers := server_ids.length }
  let p1 := res.successful.foldl
    (fun p item => p.addSuccess (mkSuccessResult nameOf "launch_test" item)) p0
  let p2 := res.failed.foldl
    (fun p item => p.addFailure (mkFailedResult nameOf "launch_test" item)) p1
  (p2, [p2])

/-- The aggregation performed by `terminate_operation` inside
`_terminate_test_instances_async` (main_window.py 393-432). -/
def terminate_operation_aggregate (nameOf : String → String)
    (server_ids : List String) (res : MGNResults) :
    BulkOperationProgress × List BulkOperationProgress :=
  let p0 : BulkOperationProgress := { total_servers := server_ids.length }
  let p1 := res.successful.foldl
    (fun p item => p.addSuccess (mkSuccessResult nameOf "terminate_test" item)) p0
  let p2 := res.failed.foldl
    (fun p item => p.addFailure (mkFailedResult nameOf "terminate_test" item)) p1
  (p2, [p2])

/-! ## Concurrent executor (src/utils/async_utils.py 47-172)

Both executors are data-flow deterministic once two oracles are fixed: the
per-item outcome of `func` (a value, or a raised exception) and the order in
which the scheduler completes the units. The semaphore, rate limiter and
progress callback only influence timing, i.e. which completion order is
realized, never what is written into `results`; they are therefore not part
of the data model. A `results` cell is `none` until written
(`results = [None] * len(items)`); item outcomes are assumed distinguishable
from `None`. -/

/-- Outcome of applying the mapped function to one item: Python either
returns a value or raises an exception object. -/
inductive Outcome (R E : Type) where
  | ok (r : R)
  | err (e : E)
  deriving DecidableEq, Repr

/-- The intended `results[index]` content for a unit: the function's result
on success, the captured exception object on failure. -/
def Outcome.cell {R E : Type} : Outcome R E → R ⊕ E
  | .ok r => .inl r
  | .err e => .inr e

/-- Whether an outcome is a success. -/
def Outcome.isOk {R E : Type} : Outcome R E → Bool
  | .ok _ => true
  | .err _ => false

/-- One iteration of the `as_completed` collection loop of
`run_concurrent_sync` (async_utils.py 161-170): a successful future writes
`results[index] = result` at its own index; a failed future writes the
exception at `future_to_index[future]` - again the failing unit's own
index. -/
def syncStep {R E : Type} (outcomes : List (Outcome R E))
    (results : List (Option (R ⊕ E))) (i : Nat) : List (Option (R ⊕ E)) :=
  match outcomes[i]? with
  | some (Outcome.ok r) => results.set i (some (Sum.inl r))
  | some (Outcome.err e) => results.set i (some (Sum.inr e))
  | none => results

/-- Embedding of `run_concurrent_sync` (async_utils.py 118-172). `outcomes i` is the
outcome of `func items[i]`; `order` lists unit indices in completion
order. -/
def run_concurrent_sync {R E : Type} (outcomes : List (Outcome R E))
    (order : List Nat) : List (Option (R ⊕ E)) :=
  order.foldl (syncStep outcomes) (List.replicate outcomes.length none)

/-- One iteration of the `asyncio.as_completed` collection loop of
`run_concurrent_with_rate_limit` (async_utils.py 103-113): a success writes
at its own index; a failure scans `for i, item in enumerate(items): if
results[i] is None: results[i] = e; break` - the FIRST still-unwritten cell,
not necessarily the failing unit's index. -/
def asyncStep {R E : Type} (outcomes : List (Outcome R E))
    (results : List (Option (R ⊕ E))) (i : Nat) : List (Option (R ⊕ E)) :=
  match outcomes[i]? with
  | some (Outcome.ok r) => results.set i (some (Sum.inl r))
  | some (Outcome.err e) =>
    match results.findIdx? (fun c => c.isNone) with
    | some j => results.set j (some (Sum.inr e))
    | none => results
  | none => results

/-- Embedding of `run_concurrent_with_rate_limit` (async_utils.py 47-115). -/
def run_concurrent_with_rate_limit {R E : Type} (outcomes : List (Outcome R E))
    (order : List Nat) : List (Option (R ⊕ E)) :=
  order.foldl (asyncStep outcomes) (List.replicate outcomes.length none)

/-! ## RateLimiter (src/utils/async_utils.py 16-44)

`time.time()` values are `Rat`. One body evaluation of `acquire` reads `now`
once, filters `self.calls`, and either appends a fresh `time.time()` reading
`t2` and returns, or sleeps and re-enters the whole body (`return await
self.acquire()`). -/

/-- Result of one body evaluation of `RateLimiter.acquire`. -/
inductive AcquireOutcome where
  | admitted (calls : List Rat)
  | wait (sleep_time : Rat)
  deriving DecidableEq, Repr

/-- One evaluation of the body of `acquire` (async_utils.py 24-40) at wall
time `now`, with `t2` the `time.time()` value taken by the append
(`t2 >= now` in reality; nothing below depends on it). `none` models the
`IndexError` of `self.calls[0]` on an empty filtered list (reachable only
when `max_calls = 0`). -/
def acquireEval (max_calls : Nat) (time_window : Rat) (calls : List Rat)
    (now t2 : Rat) : Option AcquireOutcome :=
  let calls := calls.filter (fun call_time => now - call_time < time_window)
  if max_calls ≤ calls.length then
    match calls.head? with
    | none => none
    | some c0 =>
      let sleep_time := time_window - (now - c0)
      if 0 < sleep_time then some (.wait sleep_time)
      else some (.admitted (calls ++ [t2]))
  else some (.admitted (calls ++ [t2]))

/-- The `acquire` recursion (async_utils.py line 37 `return await
self.acquire()`): `times k` supplies the `(now, t2)` clock readings of the
k-th body evaluation; `fuel` bounds the recursion depth (`none` = the call
has not returned within `fuel` retries, or raised). -/
def acquireLoop (max_calls : Nat) (time_window : Rat) (times : Nat → Rat × Rat) :
    Nat → Nat → List Rat → Option (List Rat)
  | 0, _, _ => none
  | fuel + 1, k, calls =>
    match acquireEval max_calls time_window calls (times k).1 (times k).2 with
    | none => none
    | some (.admitted newCalls) => some newCalls
    | some (.wait _) => acquireLoop max_calls time_window times fuel (k + 1) calls

/-! ## Claim C4 -/

/-- Claim C4: for every `BulkOperationProgress`, `progress_percentage` equals
`completed / totalServers * 100` when `totalServers > 0` and `0` when
`totalServers = 0` (no division by zero), and `is_complete` holds iff
`completed >= totalServers`; in particular with `totalServers = 0` the
operation is immediately complete with percentage 0. -/
theorem C4_progress_percentage_is_complete (p : BulkOperationProgress) :
    (p.total_servers = 0 →
      p.progress_percentage = 0 ∧ p.is_complete = true) ∧
    (0 < p.total_servers →
      p.progress_percentage = ((p.completed : Rat) / (p.total_servers : Rat)) * 100) ∧
    (p.is_complete = true ↔ p.total_servers ≤ p.completed) := by
  refine ⟨fun h0 => ?_, fun hpos => ?_, ?_⟩
  · constructor
    · simp [BulkOperationProgress.progress_percentage, h0]
    · simp [BulkOperationProgress.is_complete, h0]
  · simp [BulkOperationProgress.progress_percentage, Nat.pos_iff_ne_zero.mp hpos]
  · simp [BulkOperationProgress.is_complete]

/-- Witness for C4 at concrete inputs: an empty operation is complete at 0%,
and a half-done operation of 2 reports 50%. -/
theorem C4_progress_percentage_is_complete_witness :
    (BulkOperationProgress.progress_percentage { total_servers := 0 } = 0 ∧
      BulkOperationProgress.is_complete { total_servers := 0 } = true) ∧
    BulkOperationProgress.progress_percentage
      { total_servers := 2, completed := 1 } = 50 := by
  constructor
  · exact (C4_progress_percentage_is_complete { total_servers := 0 }).1 rfl
  · have h := (C4_progress_percentage_is_complete
      { total_servers := 2, completed := 1 }).2.1 (by decide)
    rw [h]
    norm_num

/-! ## Fold bookkeeping lemmas -/

theorem foldl_addSuccess_spec {α : Type} (f : α → BulkOperationResult)
    (l : List α) (p : BulkOperationProgress) :
    (l.foldl (fun q a => q.addSuccess (f a)) p).completed = p.completed + l.length ∧
    (l.foldl (fun q a => q.addSuccess (f a)) p).successful = p.successful + l.length ∧
    (l.foldl (fun q a => q.addSuccess (f a)) p).failed = p.failed ∧
    (l.foldl (fun q a => q.addSuccess (f a)) p).total_servers = p.total_servers ∧
    (l.foldl (fun q a => q.addSuccess (f a)) p).results.length = p.results.length + l.length := by
  induction l generalizing p with
  | nil => simp
  | cons a l ih =>
    simp only [List.foldl_cons, List.length_cons]
    obtain ⟨h1, h2, h3, h4, h5⟩ := ih (p.addSuccess (f a))
    refine ⟨?_, ?_, ?_, ?_, ?_⟩
    · rw [h1]; simp [BulkOperationProgress.addSuccess]; omega
    · rw [h2]; simp [BulkOperationProgress.addSuccess]; omega
    · rw [h3]; simp [BulkOperationProgress.addSuccess]
    · rw [h4]; simp [BulkOperationProgress.addSuccess]
    · rw [h5]; simp [BulkOperationProgress.addSuccess]; omega

theorem foldl_addFailure_spec {α : Type} (f : α → BulkOperationResult)
    (l : List α) (p : BulkOperationProgress) :
    (l.foldl (fun q a => q.addFailure (f a)) p).completed = p.completed + l.length ∧
    (l.foldl (fun q a => q.addFailure (f a)) p).successful = p.successful ∧
    (l.foldl (fun q a => q.addFailure (f a)) p).failed = p.failed + l.length ∧
    (l.foldl (fun q a => q.addFailure (f a)) p).total_servers = p.total_servers ∧
    (l.foldl (fun q a => q.addFailure (f a)) p).results.length = p.results.length + l.length := by
  induction l generalizing p with
  | nil => simp
  | cons a l ih =>
    simp only [List.foldl_cons, List.length_cons]
    obtain ⟨h1, h2, h3, h4, h5⟩ := ih (p.addFailure (f a))
    refine ⟨?_, ?_, ?_, ?_, ?_⟩
    · rw [h1]; simp [BulkOperationProgress.addFailure]; omega
    · rw [h2]; simp [BulkOperationProgress.addFailure]
    · rw [h3]; simp [BulkOperationProgress.addFailure]; omega
    · rw [h4]; simp [BulkOperationProgress.addFailure]
    · rw [h5]; simp [BulkOperationProgress.addFailure]; omega

theorem bulkActionStep_foldl_lengths (status : String)
    (remote : String → Except String (Option String))
    (ids : List String) (acc : MGNResults) :
    (ids.foldl (bulkActionStep status remote) acc).successful.length +
      (ids.foldl (bulkActionStep status remote) acc).failed.length =
      acc.successful.length + acc.failed.length + ids.length := by
  induction ids generalizing acc with
  | nil => simp
  | cons i ids ih =>
    simp only [List.foldl_cons, List.length_cons]
    rw [ih (bulkActionStep status remote acc i)]
    cases h : remote i <;> simp [bulkActionStep, h] <;> omega

/-- Lengths of the two result buckets of `launch_test_instances` /
`terminate_test_instances` partition the input ids. -/
theorem bulk_action_partition (remote : String → Except String (Option String))
    (ids : List String) :
    (launch_test_instances remote ids).successful.length +
      (launch_test_instances remote ids).failed.length = ids.length ∧
    (terminate_test_instances remote ids).successful.length +
      (terminate_test_instances remote ids).failed.length = ids.length := by
  constructor
  · have h := bulkActionStep_foldl_lengths "launched" remote ids
      { successful := [], failed := [], total := ids.length }
    simpa [launch_test_instances] using h
  · have h := bulkActionStep_foldl_lengths "terminated" remote ids
      { successful := [], failed := [], total := ids.length }
    simpa [terminate_test_instances] using h

/-- Final-state bookkeeping of `launch_operation_aggregate`. -/
theorem launch_operation_aggregate_spec (nameOf : String → String)
    (ids : List String) (res : MGNResults) :
    (launch_operation_aggregate nameOf ids res).1.completed =
      res.successful.length + res.failed.length ∧
    (launch_operation_aggregate nameOf ids res).1.successful = res.successful.length ∧
    (launch_operation_aggregate nameOf ids res).1.failed = res.failed.length ∧
    (launch_operation_aggregate nameOf ids res).1.total_servers = ids.length ∧
    (launch_operation_aggregate nameOf ids res).1.results.length =
      res.successful.length + res.failed.length ∧
    (launch_operation_aggregate nameOf ids res).2 =
      [(launch_operation_aggregate nameOf ids res).1] := by
  unfold launch_operation_aggregate
  obtain ⟨s1, s2, s3, s4, s5⟩ := foldl_addSuccess_spec
    (mkSuccessResult nameOf "launch_test") res.successful
    ({ total_servers := ids.length } : BulkOperationProgress)
  obtain ⟨f1, f2, f3, f4, f5⟩ := foldl_addFailure_spec
    (mkFailedResult nameOf "launch_test") res.failed
    (res.successful.foldl
      (fun p item => p.addSuccess (mkSuccessResult nameOf "launch_test" item))
      ({ total_servers := ids.length } : BulkOperationProgress))
  refine ⟨?_, ?_, ?_, ?_, ?_, rfl⟩ <;> simp only [] <;> simp [f1, f2, f3, f4, f5, s1, s2, s3, s4, s5]

/-- Final-state bookkeeping of `terminate_operation_aggregate`. -/
theorem terminate_operation_aggregate_spec (nameOf : String → String)
    (ids : List String) (res : MGNResults) :
    (terminate_operation_aggregate nameOf ids res).1.completed =
      res.successful.length + res.failed.length ∧
    (terminate_operation_aggregate nameOf ids res).1.successful = res.successful.length ∧
    (terminate_operation_aggregate nameOf ids res).1.failed = res.failed.length ∧
    (terminate_operation_aggregate nameOf ids res).1.total_servers = ids.length ∧
    (terminate_operation_aggregate nameOf ids res).1.results.length =
      res.successful.length + res.failed.length ∧
    (terminate_operation_aggregate nameOf ids res).2 =
      [(terminate_operation_aggregate nameOf ids res).1] := by
  unfold terminate_operation_aggregate
  obtain ⟨s1, s2, s3, s4, s5⟩ := foldl_addSuccess_spec
    (mkSuccessResult nameOf "terminate_test") res.successful
    ({ total_servers := ids.length } : BulkOperationProgress)
  obtain ⟨f1, f2, f3, f4, f5⟩ := foldl_addFailure_spec
    (mkFailedResult nameOf "terminate_test") res.failed
    (res.successful.foldl
      (fun p item => p.addSuccess (mkSuccessResult nameOf "terminate_test" item))
      ({ total_servers := ids.length } : BulkOperationProgress))
  refine ⟨?_, ?_, ?_, ?_, ?_, rfl⟩ <;> simp only [] <;> simp [f1, f2, f3, f4, f5, s1, s2, s3, s4, s5]

/-! ## Claim C2 -/

/-- Counterexample to claim C2 as stated: a launch bulk operation over the two
ids s-1, s-2 (both succeeding remotely) hands the progress sink a single
snapshot, not one snapshot per completion (2). -/
theorem C2_counterexample_single_snapshot :
    ((launch_operation_aggregate (fun _ => "srv") ["s-1", "s-2"]
        (launch_test_instances (fun _ => Except.ok (some "job-1"))
          ["s-1", "s-2"])).2).length ≠ 2 := by
  decide

/-- Claim C2 (amended): during a bulk operation the Coordinator appends each
unit's `BulkOperationResult` and increments the matching counter in a
post-hoc aggregation loop, but invokes the progress sink exactly once, with
the final snapshot (one `update_progress` call per operation, carrying all N
results), not after every completion. -/
theorem C2_sink_single_final_snapshot (nameOf : String → String)
    (remote : String → Except String (Option String)) (ids : List String) :
    (launch_operation_aggregate nameOf ids (launch_test_instances remote ids)).2 =
      [(launch_operation_aggregate nameOf ids (launch_test_instances remote ids)).1] ∧
    (launch_operation_aggregate nameOf ids
        (launch_test_instances remote ids)).1.results.length = ids.length ∧
    (terminate_operation_aggregate nameOf ids (terminate_test_instances remote ids)).2 =
      [(terminate_operation_aggregate nameOf ids (terminate_test_instances remote ids)).1] ∧
    (terminate_operation_aggregate nameOf ids
        (terminate_test_instances remote ids)).1.results.length = ids.length := by
  obtain ⟨hl, ht⟩ := bulk_action_partition remote ids
  obtain ⟨_, _, _, _, l5, l6⟩ :=
    launch_operation_aggregate_spec nameOf ids (launch_test_instances remote ids)
  obtain ⟨_, _, _, _, t5, t6⟩ :=
    terminate_operation_aggregate_spec nameOf ids (terminate_test_instances remote ids)
  exact ⟨l6, by rw [l5, hl], t6, by rw [t5, ht]⟩

/-! ## Claim C3 -/

/-- Claim C3: `completed = successful + failed` holds at creation (all
counters zero), is preserved by both aggregation steps, and after a bulk
operation (launch or terminate) over N ids the final progress satisfies
`completed = N` and `successful + failed = N`; moreover every intermediate
aggregation state keeps `completed ≤ totalServers`. -/
theorem C3_completed_invariant (nameOf : String → String)
    (remote : String → Except String (Option String)) (server_ids : List String) :
    (({ total_servers := server_ids.length } : BulkOperationProgress).completed = 0 ∧
      ({ total_servers := server_ids.length } : BulkOperationProgress).successful = 0 ∧
      ({ total_servers := server_ids.length } : BulkOperationProgress).failed = 0) ∧
    (∀ (p : BulkOperationProgress) (r : BulkOperationResult),
      p.completed = p.successful + p.failed →
      (p.addSuccess r).completed = (p.addSuccess r).successful + (p.addSuccess r).failed ∧
      (p.addFailure r).completed = (p.addFailure r).successful + (p.addFailure r).failed) ∧
    ((launch_operation_aggregate nameOf server_ids
        (launch_test_instances remote server_ids)).1.completed = server_ids.length ∧
      (launch_operation_aggregate nameOf server_ids
        (launch_test_instances remote server_ids)).1.successful +
        (launch_operation_aggregate nameOf server_ids
          (launch_test_instances remote server_ids)).1.failed = server_ids.length) ∧
    ((terminate_operation_aggregate nameOf server_ids
        (terminate_test_instances remote server_ids)).1.completed = server_ids.length ∧
      (terminate_operation_aggregate nameOf server_ids
        (terminate_test_instances remote server_ids)).1.successful +
        (terminate_operation_aggregate nameOf server_ids
          (terminate_test_instances remote server_ids)).1.failed = server_ids.length) ∧
    (∀ j k : Nat,
      ((((launch_test_instances remote server_ids).failed.take k).foldl
          (fun p item => p.addFailure (mkFailedResult nameOf "launch_test" item))
          (((launch_test_instances remote server_ids).successful.take j).foldl
            (fun p item => p.addSuccess (mkSuccessResult nameOf "launch_test" item))
            ({ total_servers := server_ids.length } : BulkOperationProgress))).completed ≤
        server_ids.length)) := by
  obtain ⟨hl, ht⟩ := bulk_action_partition remote server_ids
  obtain ⟨l1, l2, l3, _, _, _⟩ :=
    launch_operation_aggregate_spec nameOf server_ids (launch_test_instances remote server_ids)
  obtain ⟨t1, t2, t3, _, _, _⟩ :=
    terminate_operation_aggregate_spec nameOf server_ids
      (terminate_test_instances remote server_ids)
  refine ⟨⟨rfl, rfl, rfl⟩, ?_, ⟨?_, ?_⟩, ⟨?_, ?_⟩, ?_⟩
  · intro p r hinv
    constructor <;>
      simp [BulkOperationProgress.addSuccess, BulkOperationProgress.addFailure, hinv] <;>
      omega
  · omega
  · omega
  · omega
  · omega
  · intro j k
    obtain ⟨s1, _, _, _, _⟩ := foldl_addSuccess_spec
      (mkSuccessResult nameOf "launch_test")
      ((launch_test_instances remote server_ids).successful.take j)
      ({ total_servers := server_ids.length } : BulkOperationProgress)
    obtain ⟨f1, _, _, _, _⟩ := foldl_addFailure_spec
      (mkFailedResult nameOf "launch_test")
      ((launch_test_instances remote server_ids).failed.take k)
      (((launch_test_instances remote server_ids).successful.take j).foldl
        (fun p item => p.addSuccess (mkSuccessResult nameOf "launch_test" item))
        ({ total_servers := server_ids.length } : BulkOperationProgress))
    simp only [List.length_take] at s1 f1
    have h0 : (({ total_servers := server_ids.length } : BulkOperationProgress)).completed = 0 := rfl
    omega

/-- Witness for C3: the step-preservation clause applied at a fresh progress
of total 1 and a concrete success result. -/
theorem C3_completed_invariant_witness :
    (({ total_servers := 1 } : BulkOperationProgress).addSuccess
      { server_id := "s-1", server_name := "n", success := true,
        operation_type := "launch_test" }).completed =
    (({ total_servers := 1 } : BulkOperationProgress).addSuccess
      { server_id := "s-1", server_name := "n", success := true,
        operation_type := "launch_test" }).successful +
    (({ total_servers := 1 } : BulkOperationProgress).addSuccess
      { server_id := "s-1", server_name := "n", success := true,
        operation_type := "launch_test" }).failed :=
  ((C3_completed_invariant (fun _ => "n") (fun _ => Except.ok none) ["s-1"]).2.1
    { total_servers := 1 }
    { server_id := "s-1", server_name := "n", success := true,
      operation_type := "launch_test" } rfl).1

/-! ## Claims C6, C10: name resolution -/

theorem findNameInTagList_append_skip (pre rest : List JValue)
    (h : ∀ t ∈ pre, tagSkipsNameScan t) :
    findNameInTagList (pre ++ rest) = findNameInTagList rest := by
  induction pre with
  | nil => simp
  | cons t pre ih =>
    have hrest : ∀ x ∈ pre, tagSkipsNameScan x := fun x hx => h x (by simp [hx])
    have ht := h t (by simp)
    cases t with
    | obj kvs =>
      obtain ⟨lk, hlk, hne⟩ := ht
      simpa [findNameInTagList, hlk, hne] using ih hrest
    | str s => simpa [findNameInTagList] using ih hrest
    | num n => simpa [findNameInTagList] using ih hrest
    | bool b => simpa [findNameInTagList] using ih hrest
    | null => simpa [findNameInTagList] using ih hrest
    | arr xs => simpa [findNameInTagList] using ih hrest

/-- Claim C6: first-match-wins name precedence — (1) dict tags: the exact
`"Name"` key's value; (2) list tags: the value of the first entry whose key
lowercases to `"name"`; (3) otherwise a truthy `description`; (4) otherwise,
when `isArchived` is exactly `False`, a truthy
`sourceProperties.identificationHints.hostname`; (5) otherwise
`"Server-" + id[:8]` (the whole id when shorter than 8 characters); and the
spec's concrete instance `tags = [(key: Name, value: db01)]` resolves to
`"db01"`. -/
theorem C6_name_resolution_precedence (sd : List (String × JValue)) :
    (∀ kvs v, jgetD sd "tags" (.obj []) = .obj kvs → jget kvs "Name" = some v →
      extract_server_name sd = some v) ∧
    (∀ pre kvs post v, jgetD sd "tags" (.obj []) = .arr (pre ++ .obj kvs :: post) →
      (∀ t ∈ pre, tagSkipsNameScan t) →
      pyStrLower (jgetD kvs "key" (.str "")) = some "name" →
      jget kvs "value" = some v →
      extract_server_name sd = some v) ∧
    (nameFromTags sd = some none → truthy (jgetD sd "description" .null) = true →
      extract_server_name sd = some (jgetD sd "description" .null)) ∧
    (∀ props hints, nameFromTags sd = some none →
      truthy (jgetD sd "description" .null) = false →
      jget sd "isArchived" = some (.bool false) →
      jgetD sd "sourceProperties" (.obj []) = .obj props →
      jgetD props "identificationHints" (.obj []) = .obj hints →
      truthy (jgetD hints "hostname" .null) = true →
      extract_server_name sd = some (jgetD hints "hostname" .null)) ∧
    (∀ sid, nameFromTags sd = some none →
      truthy (jgetD sd "description" .null) = false →
      nameFromHostname sd = none →
      jgetD sd "sourceServerID" (.str "Unknown") = .str sid →
      extract_server_name sd = some (.str (if 8 ≤ sid.length
        then "Server-" ++ sid.take 8 else "Server-" ++ sid))) ∧
    extract_server_name
      [("tags", .arr [.obj [("key", .str "Name"), ("value", .str "db01")]])] =
      some (.str "db01") := by
  refine ⟨?_, ?_, ?_, ?_, ?_, by decide⟩
  · intro kvs v htags hname
    have ht : nameFromTags sd = some (some v) := by
      simp [nameFromTags, htags, hname]
    simp [extract_server_name, ht]
  · intro pre kvs post v htags hpre hk hv
    have ht : nameFromTags sd = some (some v) := by
      rw [nameFromTags, htags]
      show findNameInTagList (pre ++ .obj kvs :: post) = some (some v)
      rw [findNameInTagList_append_skip pre _ hpre]
      simp only [jgetD] at hk
      simp [findNameInTagList, hk, jgetD, hv]
    simp [extract_server_name, ht]
  · intro ht hdesc
    simp [extract_server_name, ht, hdesc]
  · intro props hints ht hdesc harch hprops hhints hhost
    have hh : nameFromHostname sd = some (jgetD hints "hostname" .null) := by
      simp [nameFromHostname, harch, hprops, hhints, hhost]
    simp [extract_server_name, ht, hdesc, hh]
  · intro sid ht hdesc hhost hsid
    simp [extract_server_name, ht, hdesc, hhost, hsid]

/-- Witness for C6: one concrete record per precedence rule. -/
theorem C6_name_resolution_precedence_witness :
    extract_server_name [("tags", .obj [("Name", .str "mapname")])] =
      some (.str "mapname") ∧
    extract_server_name
      [("tags", .arr [.obj [("key", .str "name"), ("value", .str "v2")]])] =
      some (.str "v2") ∧
    extract_server_name [("description", .str "d")] = some (.str "d") ∧
    extract_server_name
      [("isArchived", .bool false),
       ("sourceProperties", .obj [("identificationHints",
          .obj [("hostname", .str "h1")])])] = some (.str "h1") ∧
    extract_server_name [("sourceServerID", .str "s-12345678901")] =
      some (.str "Server-s-123456") := by
  refine ⟨?_, ?_, ?_, ?_, ?_⟩
  · exact (C6_name_resolution_precedence
      [("tags", .obj [("Name", .str "mapname")])]).1
      [("Name", .str "mapname")] (.str "mapname") (by decide) (by decide)
  · exact (C6_name_resolution_precedence
      [("tags", .arr [.obj [("key", .str "name"), ("value", .str "v2")]])]).2.1
      [] [("key", .str "name"), ("value", .str "v2")] [] (.str "v2")
      (by decide) (by simp) (by decide) (by decide)
  · exact (C6_name_resolution_precedence [("description", .str "d")]).2.2.1
      (by decide) (by decide)
  · exact (C6_name_resolution_precedence
      [("isArchived", .bool false),
       ("sourceProperties", .obj [("identificationHints",
          .obj [("hostname", .str "h1")])])]).2.2.2.1
      [("identificationHints", .obj [("hostname", .str "h1")])]
      [("hostname", .str "h1")]
      (by decide) (by decide) (by decide) (by decide) (by decide) (by decide)
  · exact (C6_name_resolution_precedence
      [("sourceServerID", .str "s-12345678901")]).2.2.2.2.1
      "s-12345678901" (by decide) (by decide) (by decide) (by decide)

/-- Claim C10: a list tag whose key matches "name" case-insensitively but
which has no "value" field resolves the name to the literal string
"Unknown", not to any later fallback. -/
theorem C10_missing_tag_value_yields_unknown (sd : List (String × JValue))
    (pre : List JValue) (kvs : List (String × JValue)) (post : List JValue)
    (htags : jgetD sd "tags" (.obj []) = .arr (pre ++ .obj kvs :: post))
    (hpre : ∀ t ∈ pre, tagSkipsNameScan t)
    (hk : pyStrLower (jgetD kvs "key" (.str "")) = some "name")
    (hv : jget kvs "value" = none) :
    extract_server_name sd = some (.str "Unknown") := by
  have ht : nameFromTags sd = some (some (.str "Unknown")) := by
    rw [nameFromTags, htags]
    show findNameInTagList (pre ++ .obj kvs :: post) = some (some (.str "Unknown"))
    rw [findNameInTagList_append_skip pre _ hpre]
    simp only [jgetD] at hk
    simp [findNameInTagList, hk, jgetD, hv]
  simp [extract_server_name, ht]

/-- Witness for C10: a value-less NAME tag wins over a present description. -/
theorem C10_missing_tag_value_yields_unknown_witness :
    extract_server_name
      [("tags", .arr [.obj [("key", .str "NAME")]]),
       ("description", .str "ignored")] = some (.str "Unknown") :=
  C10_missing_tag_value_yields_unknown
    [("tags", .arr [.obj [("key", .str "NAME")]]), ("description", .str "ignored")]
    [] [("key", .str "NAME")] []
    (by decide) (by simp) (by decide) (by decide)

/-! ## Claim C7: replication resolution -/

/-- Claim C7: replication status is resolved in priority order — the explicit
state through the fixed table (STOPPED, FAILED, INITIAL_SYNC,
INITIAL_SYNC_COMPLETE to REPLICATED, BACKLOG, CONTINUOUS); else a truthy lag
duration other than the "P0D" sentinel gives REPLICATING; else a truthy last
snapshot timestamp gives REPLICATED; else UNKNOWN — and the spec's concrete
instance lagDuration "P0D" with no explicit state and no snapshot resolves
to UNKNOWN. -/
theorem C7_replication_resolution (rd : List (String × JValue)) :
    (jgetD rd "dataReplicationState" (.str "") = .str "STOPPED" →
      parse_replication_status rd = .STOPPED) ∧
    (jgetD rd "dataReplicationState" (.str "") = .str "FAILED" →
      parse_replication_status rd = .FAILED) ∧
    (jgetD rd "dataReplicationState" (.str "") = .str "INITIAL_SYNC" →
      parse_replication_status rd = .INITIAL_SYNC) ∧
    (jgetD rd "dataReplicationState" (.str "") = .str "INITIAL_SYNC_COMPLETE" →
      parse_replication_status rd = .REPLICATED) ∧
    (jgetD rd "dataReplicationState" (.str "") = .str "BACKLOG" →
      parse_replication_status rd = .BACKLOG) ∧
    (jgetD rd "dataReplicationState" (.str "") = .str "CONTINUOUS" →
      parse_replication_status rd = .CONTINUOUS) ∧
    (replicationStateUnmapped (jgetD rd "dataReplicationState" (.str "")) →
      truthy (jgetD rd "lagDuration" (.str "")) = true →
      jgetD rd "lagDuration" (.str "") ≠ .str "P0D" →
      parse_replication_status rd = .REPLICATING) ∧
    (replicationStateUnmapped (jgetD rd "dataReplicationState" (.str "")) →
      (truthy (jgetD rd "lagDuration" (.str "")) = false ∨
        jgetD rd "lagDuration" (.str "") = .str "P0D") →
      truthy (jgetD rd "lastSnapshotDateTime" .null) = true →
      parse_replication_status rd = .REPLICATED) ∧
    (replicationStateUnmapped (jgetD rd "dataReplicationState" (.str "")) →
      (truthy (jgetD rd "lagDuration" (.str "")) = false ∨
        jgetD rd "lagDuration" (.str "") = .str "P0D") →
      truthy (jgetD rd "lastSnapshotDateTime" .null) = false →
      parse_replication_status rd = .UNKNOWN) ∧
    parse_replication_status [("lagDuration", .str "P0D")] = .UNKNOWN := by
  refine ⟨?_, ?_, ?_, ?_, ?_, ?_, ?_, ?_, ?_, by decide⟩
  · intro h
    cases rd with
    | nil => exact absurd h (by decide)
    | cons a l => simp [parse_replication_status, h]
  · intro h
    cases rd with
    | nil => exact absurd h (by decide)
    | cons a l => simp [parse_replication_status, h]
  · intro h
    cases rd with
    | nil => exact absurd h (by decide)
    | cons a l => simp [parse_replication_status, h]
  · intro h
    cases rd with
    | nil => exact absurd h (by decide)
    | cons a l => simp [parse_replication_status, h]
  · intro h
    cases rd with
    | nil => exact absurd h (by decide)
    | cons a l => simp [parse_replication_status, h]
  · intro h
    cases rd with
    | nil => exact absurd h (by decide)
    | cons a l => simp [parse_replication_status, h]
  · intro hu hlag hne
    obtain ⟨u1, u2, u3, u4, u5, u6⟩ := hu
    cases rd with
    | nil => exact absurd hlag (by decide)
    | cons a l =>
      simp [parse_replication_status, u1, u2, u3, u4, u5, u6, hlag, hne]
  · intro hu hlag hsnap
    obtain ⟨u1, u2, u3, u4, u5, u6⟩ := hu
    cases rd with
    | nil => exact absurd hsnap (by decide)
    | cons a l =>
      cases hlag with
      | inl h => simp [parse_replication_status, u1, u2, u3, u4, u5, u6, h, hsnap]
      | inr h => simp [parse_replication_status, u1, u2, u3, u4, u5, u6, h, hsnap]
  · intro hu hlag hsnap
    obtain ⟨u1, u2, u3, u4, u5, u6⟩ := hu
    cases rd with
    | nil => rfl
    | cons a l =>
      cases hlag with
      | inl h => simp [parse_replication_status, u1, u2, u3, u4, u5, u6, h, hsnap]
      | inr h => simp [parse_replication_status, u1, u2, u3, u4, u5, u6, h, hsnap]

/-- Witness for C7: one concrete record per resolution rule. -/
theorem C7_replication_resolution_witness :
    parse_replication_status [("dataReplicationState", .str "BACKLOG")] =
      .BACKLOG ∧
    parse_replication_status [("lagDuration", .str "PT5S")] = .REPLICATING ∧
    parse_replication_status [("lastSnapshotDateTime", .str "2024-01-01")] =
      .REPLICATED ∧
    parse_replication_status [("dataReplicationState", .str "DISCONNECTED")] =
      .UNKNOWN := by
  refine ⟨?_, ?_, ?_, ?_⟩
  · exact (C7_replication_resolution
      [("dataReplicationState", .str "BACKLOG")]).2.2.2.2.1 (by decide)
  · exact (C7_replication_resolution
      [("lagDuration", .str "PT5S")]).2.2.2.2.2.2.1
      ⟨by decide, by decide, by decide, by decide, by decide, by decide⟩ (by decide) (by decide)
  · exact (C7_replication_resolution
      [("lastSnapshotDateTime", .str "2024-01-01")]).2.2.2.2.2.2.2.1
      ⟨by decide, by decide, by decide, by decide, by decide, by decide⟩ (Or.inl (by decide)) (by decide)
  · exact (C7_replication_resolution
      [("dataReplicationState", .str "DISCONNECTED")]).2.2.2.2.2.2.2.2.1
      ⟨by decide, by decide, by decide, by decide, by decide, by decide⟩ (Or.inl (by decide)) (by decide)

/-! ## Claim C8: missing id is a per-record failure -/

theorem get_source_servers_items_append (ec2 : JValue → ECOutcome)
    (fromiso : String → Option String) (region : String)
    (xs ys : List JValue) :
    get_source_servers_items ec2 fromiso region (xs ++ ys) =
      get_source_servers_items ec2 fromiso region xs ++
        get_source_servers_items ec2 fromiso region ys := by
  induction xs with
  | nil => simp [get_source_servers_items]
  | cons x xs ih =>
    cases x with
    | obj sd =>
      cases h : parse_source_server ec2 fromiso region sd <;>
        simp [get_source_servers_items, h, ih]
    | str s => simpa [get_source_servers_items] using ih
    | num n => simpa [get_source_servers_items] using ih
    | bool b => simpa [get_source_servers_items] using ih
    | null => simpa [get_source_servers_items] using ih
    | arr a => simpa [get_source_servers_items] using ih

/-- Claim C8: a record whose `sourceServerID` is missing or falsy fails to
parse (`ValueError`, caught per item), is absent from the returned list, and
leaves every other record of the batch untouched; the listing loop never
lets the exception escape (it is total by construction). -/
theorem C8_missing_id_per_record_failure (ec2 : JValue → ECOutcome)
    (fromiso : String → Option String) (region : String)
    (pre post : List JValue) (bad : List (String × JValue))
    (hbad : truthy (jgetD bad "sourceServerID" (.str "")) = false) :
    parse_source_server ec2 fromiso region bad = none ∧
    get_source_servers_items ec2 fromiso region (pre ++ JValue.obj bad :: post) =
      get_source_servers_items ec2 fromiso region pre ++
        get_source_servers_items ec2 fromiso region post := by
  have hparse : parse_source_server ec2 fromiso region bad = none := by
    simp [parse_source_server, hbad]
  refine ⟨hparse, ?_⟩
  rw [get_source_servers_items_append]
  simp [get_source_servers_items, hparse]

/-- Witness for C8: a three-record batch whose middle record has no id
yields exactly the two well-formed records. -/
theorem C8_missing_id_per_record_failure_witness :
    parse_source_server (fun _ => .noReservations) (fun _ => none) "r"
      [("description", .str "noid")] = none ∧
    get_source_servers_items (fun _ => .noReservations) (fun _ => none) "r"
      [.obj [("sourceServerID", .str "s-ok1")],
       .obj [("description", .str "noid")],
       .obj [("sourceServerID", .str "s-ok2")]] =
      get_source_servers_items (fun _ => .noReservations) (fun _ => none) "r"
        [.obj [("sourceServerID", .str "s-ok1")]] ++
        get_source_servers_items (fun _ => .noReservations) (fun _ => none) "r"
          [.obj [("sourceServerID", .str "s-ok2")]] :=
  C8_missing_id_per_record_failure (fun _ => .noReservations) (fun _ => none) "r"
    [.obj [("sourceServerID", .str "s-ok1")]]
    [.obj [("sourceServerID", .str "s-ok2")]]
    [("description", .str "noid")] (by decide)

/-! ## Claim C9: reconciliation purity -/

/-- Counterexample to claim C9 as stated: reconciliation is not a pure
function of the raw record. A record carrying a `launchedInstance` id but no
state makes `_parse_source_server` consult the live EC2 describe-instances
capability; two calls on the very same record straddling an EC2 state change
(modelled by the two capability snapshots) yield records differing in
`test_instance_state`. -/
theorem C9_counterexample_ec2_lookup :
    parse_source_server (fun _ => .found "running") (fun _ => none) "us-east-1"
      [("sourceServerID", .str "s-1"),
       ("launchedInstance", .obj [("ec2InstanceID", .str "i-0123456789abc")])] ≠
    parse_source_server (fun _ => .found "stopped") (fun _ => none) "us-east-1"
      [("sourceServerID", .str "s-1"),
       ("launchedInstance", .obj [("ec2InstanceID", .str "i-0123456789abc")])] := by
  decide

theorem resolveTestInstanceState_env (ec2a ec2b : JValue → ECOutcome)
    (tid tstate : JValue)
    (h : (truthy tid && !truthy tstate) = false) :
    resolveTestInstanceState ec2a tid tstate =
      resolveTestInstanceState ec2b tid tstate := by
  unfold resolveTestInstanceState
  have hc : ¬ (truthy tid = true ∧ ¬ truthy tstate = true) := by
    intro hc
    obtain ⟨h1, h2⟩ := hc
    simp [h1] at h
    exact h2 h
  rw [if_neg hc, if_neg hc]

/-- Claim C9 (amended): reconciliation is deterministic in the raw record and
the fixed parsing helpers, except through the best-effort EC2 state lookup:
whenever the record does not trigger that lookup (an instance id found
without a state), the result is independent of the EC2 capability entirely,
so two calls on the same record yield records equal in every field. When the
lookup is triggered, a change in the EC2 response between the two calls can
change `test_instance_state` (see the counterexample). -/
theorem C9_reconcile_deterministic (ec2a ec2b : JValue → ECOutcome)
    (fromiso : String → Option String) (region : String)
    (sd : List (String × JValue))
    (h : ec2LookupTaken sd = false) :
    parse_source_server ec2a fromiso region sd =
      parse_source_server ec2b fromiso region sd := by
  have hcond : (truthy (testInstanceIdState sd).1 &&
      !truthy (testInstanceIdState sd).2) = false := by
    simpa [ec2LookupTaken] using h
  simp only [parse_source_server,
    resolveTestInstanceState_env ec2a ec2b (testInstanceIdState sd).1
      (testInstanceIdState sd).2 hcond]

/-- Witness for C9 (amended): a record with no discoverable instance id
reconciles identically under two different EC2 capabilities. -/
theorem C9_reconcile_deterministic_witness :
    parse_source_server (fun _ => .found "running") (fun _ => none) "r"
      [("sourceServerID", .str "s-1")] =
    parse_source_server (fun _ => .found "stopped") (fun _ => none) "r"
      [("sourceServerID", .str "s-1")] :=
  C9_reconcile_deterministic (fun _ => .found "running") (fun _ => .found "stopped")
    (fun _ => none) "r" [("sourceServerID", .str "s-1")] (by decide)

/-! ## Claim C1: executor output correspondence -/

theorem syncStep_foldl_get {R E : Type} (outcomes : List (Outcome R E))
    (order : List Nat) (results : List (Option (R ⊕ E)))
    (hlen : results.length = outcomes.length) :
    (order.foldl (syncStep outcomes) results).length = outcomes.length ∧
    ∀ j o, outcomes[j]? = some o →
      (order.foldl (syncStep outcomes) results)[j]? =
        (if j ∈ order then some (some o.cell) else results[j]?) := by
  induction order generalizing results with
  | nil => exact ⟨hlen, fun j o h => by simp⟩
  | cons i order ih =>
    simp only [List.foldl_cons]
    have hlen1 : (syncStep outcomes results i).length = outcomes.length := by
      unfold syncStep
      cases hi : outcomes[i]? with
      | none => simpa using hlen
      | some o => cases o <;> simpa [List.length_set] using hlen
    obtain ⟨L, G⟩ := ih _ hlen1
    refine ⟨L, fun j o h => ?_⟩
    rw [G j o h]
    by_cases hmem : j ∈ order
    · simp [hmem]
    · by_cases hji : j = i
      · subst hji
        have hjlt : j < results.length := by
          rw [hlen]
          exact (List.getElem?_eq_some.mp h).1
        rw [if_neg hmem, if_pos (List.mem_cons_self j order)]
        unfold syncStep
        cases o with
        | ok r =>
          rw [h]
          exact List.getElem?_set_eq_of_lt _ hjlt
        | err e =>
          rw [h]
          exact List.getElem?_set_eq_of_lt _ hjlt
      · rw [if_neg hmem, if_neg (by simp [List.mem_cons, hji, hmem])]
        unfold syncStep
        cases hi : outcomes[i]? with
        | none => rfl
        | some o2 =>
          cases o2 <;> exact List.getElem?_set_ne (fun hij => hji hij.symm)

/-- With every outcome a success, the async collection loop takes the same
branch as the sync one at every step. -/
theorem async_eq_sync_of_all_ok {R E : Type} (outcomes : List (Outcome R E))
    (order : List Nat) (hok : ∀ o ∈ outcomes, o.isOk = true) :
    run_concurrent_with_rate_limit outcomes order =
      run_concurrent_sync outcomes order := by
  unfold run_concurrent_with_rate_limit run_concurrent_sync
  apply List.foldl_ext
  intro results i _
  unfold asyncStep syncStep
  cases hi : outcomes[i]? with
  | none => rfl
  | some o =>
    cases o with
    | ok r => rfl
    | err e =>
      exfalso
      obtain ⟨hlt, hget⟩ := List.getElem?_eq_some.mp hi
      have hmem : Outcome.err e ∈ outcomes := by
        rw [← hget]
        exact List.getElem_mem hlt
      simpa [Outcome.isOk] using hok _ hmem

/-- Counterexample to claim C1 as stated: with outcomes `[ok 0, err 7]` and
the failing unit completing first (a legitimate completion order covering
every index), the async executor records the exception at index 0 - the
first still-empty cell - and leaves index 1 unwritten, so output[1] is not
the captured failure of input 1. -/
theorem C1_counterexample_async_misplaced_failure :
    (∀ j, j < 2 → j ∈ ([1, 0] : List Nat)) ∧
    run_concurrent_with_rate_limit
        [Outcome.ok (0 : Nat), Outcome.err (7 : Nat)] [1, 0] ≠
      [Outcome.ok (0 : Nat), Outcome.err (7 : Nat)].map
        (fun o => some o.cell) := by
  refine ⟨by decide, by decide⟩

/-- Claim C1 (amended): for every completion order covering all indices, the
thread-pool executor `run_concurrent_sync` returns a list whose length
equals the input length and whose cell i holds exactly the outcome of unit i
(result on success, captured exception on failure); the async
`run_concurrent_with_rate_limit` guarantees the same whenever no unit
raises. (When a unit raises, the async variant can misplace the failure -
see the counterexample.) -/
theorem C1_output_correspondence {R E : Type} (outcomes : List (Outcome R E))
    (order : List Nat) (hcover : ∀ j, j < outcomes.length → j ∈ order) :
    run_concurrent_sync outcomes order =
      outcomes.map (fun o => some o.cell) ∧
    ((∀ o ∈ outcomes, o.isOk = true) →
      run_concurrent_with_rate_limit outcomes order =
        outcomes.map (fun o => some o.cell)) := by
  have hsync : run_concurrent_sync outcomes order =
      outcomes.map (fun o => some o.cell) := by
    obtain ⟨L, G⟩ := syncStep_foldl_get outcomes order
      (List.replicate outcomes.length none) (by simp)
    rw [run_concurrent_sync]
    apply List.ext_getElem?
    intro n
    by_cases hn : n < outcomes.length
    · have ho := List.getElem?_eq_getElem hn
      rw [G n outcomes[n] ho, if_pos (hcover n hn), List.getElem?_map, ho]
      rfl
    · have h1 : (List.foldl (syncStep outcomes)
          (List.replicate outcomes.length none) order)[n]? = none :=
        List.getElem?_eq_none (by rw [L]; omega)
      have h2 : outcomes[n]? = none := List.getElem?_eq_none (by omega)
      rw [h1, List.getElem?_map, h2]
      rfl
  refine ⟨hsync, fun hok => ?_⟩
  rw [async_eq_sync_of_all_ok outcomes order hok, hsync]

/-- Witness for C1 (amended): concrete runs with out-of-index completion
order - the sync executor with a failure, the async one all-successful. -/
theorem C1_output_correspondence_witness :
    run_concurrent_sync
        ([Outcome.ok 1, Outcome.err 5] : List (Outcome Nat Nat)) [1, 0] =
      [some (Sum.inl 1), some (Sum.inr 5)] ∧
    run_concurrent_with_rate_limit
        ([Outcome.ok 1, Outcome.ok 2] : List (Outcome Nat Nat)) [1, 0] =
      [some (Sum.inl 1), some (Sum.inl 2)] := by
  constructor
  · exact (C1_output_correspondence
      ([Outcome.ok 1, Outcome.err 5] : List (Outcome Nat Nat)) [1, 0]
      (by decide)).1
  · exact (C1_output_correspondence
      ([Outcome.ok 1, Outcome.ok 2] : List (Outcome Nat Nat)) [1, 0]
      (by decide)).2 (by decide)

/-! ## Claim C5: rate limiter -/

theorem mem_of_headq_eq_some {α : Type} {l : List α} {a : α}
    (h : l.head? = some a) : a ∈ l := by
  cases l with
  | nil => exact absurd h (by simp)
  | cons x xs =>
    simp at h
    subst h
    simp

theorem acquireEval_admitted_length (max_calls : Nat) (time_window : Rat)
    (calls : List Rat) (now t2 : Rat) (nc : List Rat)
    (h : acquireEval max_calls time_window calls now t2 =
      some (.admitted nc)) :
    nc.length ≤ max_calls := by
  simp only [acquireEval] at h
  by_cases hc : max_calls ≤
      (calls.filter (fun call_time => now - call_time < time_window)).length
  · rw [if_pos hc] at h
    cases hh : (calls.filter
        (fun call_time => now - call_time < time_window)).head? with
    | none => rw [hh] at h; exact absurd h (by simp)
    | some c0 =>
      rw [hh] at h
      have hmem : c0 ∈ calls.filter
          (fun call_time => now - call_time < time_window) :=
        mem_of_headq_eq_some hh
      have hlt : now - c0 < time_window := by
        simpa using (List.mem_filter.mp hmem).2
      have hpos : 0 < time_window - (now - c0) := by linarith
      simp [hpos] at h
  · rw [if_neg hc] at h
    simp only [Option.some.injEq, AcquireOutcome.admitted.injEq] at h
    have hlen : nc.length =
        (calls.filter (fun call_time => now - call_time < time_window)).length
          + 1 := by
      rw [← h]
      simp
    omega

theorem acquireLoop_return_length (max_calls : Nat) (time_window : Rat)
    (times : Nat → Rat × Rat) :
    ∀ fuel k calls newCalls,
      acquireLoop max_calls time_window times fuel k calls = some newCalls →
      newCalls.length ≤ max_calls := by
  intro fuel
  induction fuel with
  | zero =>
    intro k calls nc h
    exact absurd h (by simp [acquireLoop])
  | succ fuel ih =>
    intro k calls nc h
    rw [acquireLoop] at h
    cases he : acquireEval max_calls time_window calls (times k).1
        (times k).2 with
    | none => rw [he] at h; exact absurd h (by simp)
    | some o =>
      rw [he] at h
      cases o with
      | admitted nc2 =>
        simp only [Option.some.injEq] at h
        subst h
        exact acquireEval_admitted_length max_calls time_window calls
          (times k).1 (times k).2 nc2 he
      | wait s => exact ih (k + 1) calls nc (by simpa using h)

/-- Claim C5: each body evaluation of `acquire` first discards timestamps
older than `now - window`; if fewer than `max_calls` remain it records the
current time and returns immediately; otherwise it sleeps for
`window - (now - oldestRemaining)` - provably positive, so the zero-clamp
never engages - and re-enters the whole body (a loop); consequently every
return of `acquire` leaves at most `max_calls` recorded timestamps, so at
most `max_calls` of them lie within any sliding window. -/
theorem C5_rate_limiter_acquire (max_calls : Nat) (time_window : Rat)
    (times : Nat → Rat × Rat) :
    (∀ (calls : List Rat) (now t2 : Rat),
      (calls.filter (fun call_time => now - call_time < time_window)).length
          < max_calls →
      acquireEval max_calls time_window calls now t2 =
        some (.admitted
          (calls.filter (fun call_time => now - call_time < time_window)
            ++ [t2]))) ∧
    (∀ (calls : List Rat) (now t2 c0 : Rat),
      max_calls ≤
        (calls.filter (fun call_time => now - call_time < time_window)).length →
      (calls.filter (fun call_time => now - call_time < time_window)).head? =
        some c0 →
      acquireEval max_calls time_window calls now t2 =
        some (.wait (time_window - (now - c0)))) ∧
    (∀ fuel k calls s,
      acquireEval max_calls time_window calls (times k).1 (times k).2 =
        some (.wait s) →
      acquireLoop max_calls time_window times (fuel + 1) k calls =
        acquireLoop max_calls time_window times fuel (k + 1) calls) ∧
    (∀ fuel k calls newCalls,
      acquireLoop max_calls time_window times fuel k calls = some newCalls →
      newCalls.length ≤ max_calls ∧
      ∀ w0 : Rat,
        (newCalls.filter (fun t => w0 ≤ t ∧ t < w0 + time_window)).length ≤
          max_calls) := by
  refine ⟨?_, ?_, ?_, ?_⟩
  · intro calls now t2 hlt
    simp only [acquireEval]
    rw [if_neg (not_le.mpr hlt)]
  · intro calls now t2 c0 h1 h2
    have hmem : c0 ∈ calls.filter
        (fun call_time => now - call_time < time_window) :=
      mem_of_headq_eq_some h2
    have hlt : now - c0 < time_window := by
      simpa using (List.mem_filter.mp hmem).2
    have hpos : 0 < time_window - (now - c0) := by linarith
    simp only [acquireEval]
    rw [if_pos h1, h2]
    simp [hpos]
  · intro fuel k calls s h
    simp [acquireLoop, h]
  · intro fuel k calls newCalls h
    have hlen := acquireLoop_return_length max_calls time_window times
      fuel k calls newCalls h
    exact ⟨hlen, fun w0 =>
      le_trans (List.length_filter_le _ newCalls) hlen⟩

/-- Witness for C5 with `max_calls = 2`, `window = 1`: an uncontended call is
admitted and recorded; a full window yields a sleep of exactly the residual
`0.5`; the sleep re-enters the loop; a returned call list respects the
bound. -/
theorem C5_rate_limiter_acquire_witness :
    acquireEval 2 1 [] 10 10 = some (.admitted [10]) ∧
    acquireEval 2 1 [9.5, 9.8] 10 10 = some (.wait 0.5) ∧
    acquireLoop 2 1 (fun _ => ((10 : Rat), (10 : Rat))) 2 0 [9.5, 9.8] =
      acquireLoop 2 1 (fun _ => ((10 : Rat), (10 : Rat))) 1 1 [9.5, 9.8] ∧
    (([(10 : Rat)] : List Rat).length ≤ 2 ∧
      (([(10 : Rat)] : List Rat).filter
        (fun t => 0 ≤ t ∧ t < 0 + 1)).length ≤ 2) := by
  obtain ⟨p1, p2, p3, p4⟩ :=
    C5_rate_limiter_acquire 2 1 (fun _ => ((10 : Rat), (10 : Rat)))
  refine ⟨?_, ?_, ?_, ?_⟩
  · exact p1 [] 10 10 (by simp)
  · have h2 := p2 [9.5, 9.8] 10 10 9.5 (by norm_num [List.filter])
      (by norm_num [List.filter])
    rw [h2]
    norm_num
  · refine p3 1 0 [9.5, 9.8] 0.5 ?_
    have h2 := p2 [9.5, 9.8] 10 10 9.5 (by norm_num [List.filter])
      (by norm_num [List.filter])
    rw [h2]
    norm_num
  · obtain ⟨h1, h2⟩ := p4 1 0 [] [10]
      (by norm_num [acquireLoop, acquireEval])
    exact ⟨h1, h2 0⟩

end MGNBot

